import Mathlib

/-!
Shallow embedding of the collectd-to-statsd writer plugin
(source file statsd_writer/__init__.py) together with proofs that
settle the specification claims about it.

Conventions of the embedding:
- Python strings are Lean String; helper functions below reproduce the
  exact Python primitives used by the source (str.strip, str.split,
  str.split with a maxsplit of 1, str.replace, str.lower on ASCII keys,
  slicing, and the dot join).
- A field that the host may leave absent is an Option; Python None is
  none.
- Sample values are rationals; the float(value) coercion of the source
  is the identity on this value type.
- The statsd client is an Option Unit: some means a sink was
  constructed, none means it was not.
- A writer returns the list of emissions made to the sink before the
  call returned or raised, together with the exception it raised, if
  any.  Python exceptions are the constructors of Err.
-/

/-- Python whitespace characters, as used by str.strip and str.split. -/
def isPyWs (c : Char) : Bool :=
  c = ' ' || c = '\t' || c = '\n' || c = '\r' || c = '\x0b' || c = '\x0c'

/-- Python str.strip with no argument: remove leading and trailing whitespace. -/
def pyStrip (s : String) : String :=
  String.mk (((s.data.dropWhile isPyWs).reverse.dropWhile isPyWs).reverse)

/-- Worker for pySplitWS: current input and the reversed current field. -/
def splitWSGo : List Char → List Char → List String
  | [], [] => []
  | [], acc => [String.mk acc.reverse]
  | c :: cs, acc =>
    if isPyWs c then
      match acc with
      | [] => splitWSGo cs []
      | _ => String.mk acc.reverse :: splitWSGo cs []
    else splitWSGo cs (c :: acc)

/-- Python str.split with no argument: split on whitespace runs, no empty fields. -/
def pySplitWS (s : String) : List String :=
  splitWSGo s.data []

/-- Worker for splitOnColon: current input and the reversed current field. -/
def splitColonGo : List Char → List Char → List String
  | [], acc => [String.mk acc.reverse]
  | c :: cs, acc =>
    if c = ':' then String.mk acc.reverse :: splitColonGo cs []
    else splitColonGo cs (c :: acc)

/-- Python str.split with argument a colon: empty fields are kept. -/
def splitOnColon (s : String) : List String :=
  splitColonGo s.data []

/-- Python str.replace of every comma by a space (single-character case). -/
def replaceCommaSpace (s : String) : String :=
  String.mk (s.data.map (fun c => if c = ',' then ' ' else c))

/-- Python str.split with separator None and maxsplit 1. -/
def splitFirstWS (s : String) : List String :=
  let cs := s.data.dropWhile isPyWs
  if cs = [] then []
  else
    let fld := cs.takeWhile (fun c => !isPyWs c)
    let rest := (cs.dropWhile (fun c => !isPyWs c)).dropWhile isPyWs
    if rest = [] then [String.mk fld] else [String.mk fld, String.mk rest]

/-- Python str.startswith applied to the hash character. -/
def startsWithHash (s : String) : Bool :=
  match s.data with
  | [] => false
  | c :: _ => c = '#'

/-- ASCII model of Python str.lower, as applied to configuration keys. -/
def lowerChar (c : Char) : Char :=
  if 'A' ≤ c ∧ c ≤ 'Z' then Char.ofNat (c.toNat + 32) else c

/-- Python str.lower on a string of ASCII characters. -/
def pyLower (s : String) : String :=
  String.mk (s.data.map lowerChar)

/-- Python slicing s[3:]. -/
def pyDrop3 (s : String) : String :=
  String.mk (s.data.drop 3)

/-- The join of a list of strings by single dots, as Python dot join. -/
def joinDot : List String → String
  | [] => ""
  | [x] => x
  | x :: xs => x ++ "." ++ joinDot xs

/-- Lookup in a Python dict modelled as an insertion list: the last
binding of a key wins, as dict construction and item assignment give. -/
def dictGet {α : Type} : List (String × α) → String → Option α
  | [], _ => none
  | p :: rest, k =>
    match dictGet rest k with
    | some v => some v
    | none => if p.1 = k then some p.2 else none

/-- Python dict item assignment, observed through dictGet. -/
def dictSet {α : Type} (l : List (String × α)) (k : String) (v : α) :
    List (String × α) :=
  l ++ [(k, v)]

/-- First defined of two options. -/
def or2 {α : Type} (a b : Option α) : Option α :=
  match a with
  | some v => some v
  | none => b

/-- The Python exceptions the plugin can raise.
schemaLookup is the KeyError from types[values.type], indexLookup the
IndexError from indexing the descriptor list, nameLookup the KeyError
from the name key of a descriptor dict, sinkUnavailable the explicit
RuntimeError raised when the statsd client is None, attrError the
error from reading an attribute the host did not supply, valueErr the
unpacking error in parse_types, and parseErr the ParseError that the
specification postulates for its validating parser. -/
inductive Err
  | schemaLookup
  | indexLookup
  | nameLookup
  | sinkUnavailable
  | attrError
  | valueErr
  | parseErr
deriving DecidableEq

/-- One data-source descriptor as parse_sources builds it: the dict
made by zipping the field names with the colon-split fields, so any
field beyond the available split parts is simply absent. -/
structure SourceSpec where
  name : Option String
  type : Option String
  min : Option String
  max : Option String
deriving DecidableEq

/-- dict(zip((name, type, min, max), parts)) of the source. -/
def mkSource (parts : List String) : SourceSpec :=
  { name := parts[0]?, type := parts[1]?, min := parts[2]?, max := parts[3]? }

/-- parse_sources of the source: replace commas by spaces, split on
whitespace, and turn each token into a descriptor dict. -/
def parse_sources (sources : String) : List SourceSpec :=
  (pySplitWS (replaceCommaSpace sources)).map (fun tok => mkSource (splitOnColon tok))

/-- The types database: insertion-ordered bindings of a Python dict. -/
def TypeSchema : Type := List (String × List SourceSpec)

/-- The filter of parse_types: keep a stripped line when it is
nonempty and does not start with a hash. -/
def keepLine (l : String) : Bool :=
  (!(l == "")) && (!(startsWithHash l))

/-- The dict comprehension of parse_types: each spec must unpack into
exactly a name and a source string, otherwise the iteration raises. -/
def build_specs : List (List String) → Except Err (List (String × List SourceSpec))
  | [] => Except.ok []
  | spec :: rest =>
    match spec with
    | [name, srcs] =>
      match build_specs rest with
      | Except.ok d => Except.ok ((name, parse_sources srcs) :: d)
      | Except.error e => Except.error e
    | _ => Except.error Err.valueErr

/-- parse_types of the source, over the list of lines of the file:
strip every line, drop blank and comment lines, split each kept line
at its first whitespace run, and build the dict. -/
def parse_types (lines : List String) : Except Err (List (String × List SourceSpec)) :=
  build_specs (((lines.map pyStrip).filter keepLine).map splitFirstWS)

/-- A value delivered in a configuration item. -/
inductive CVal
  | str (s : String)
  | int (n : Int)
  | vnone
deriving DecidableEq

/-- One child of the Module configuration block: a key and the values
supplied for it. -/
structure ConfigItem where
  key : String
  values : List CVal
deriving DecidableEq

/-- DEFAULTS of the source. -/
def DEFAULTS : List (String × CVal) :=
  [("host", CVal.str "localhost"),
   ("port", CVal.int 8125),
   ("prefix", CVal.vnone),
   ("typesdb", CVal.str "/usr/share/collectd/types.db")]

/-- One iteration of the configuration loop of configure: lowercase
the key, skip unknown keys, skip items without exactly one value, and
otherwise assign the single value. -/
def configStep (conf : List (String × CVal)) (item : ConfigItem) :
    List (String × CVal) :=
  let key := pyLower item.key
  if (dictGet DEFAULTS key).isNone then conf
  else if item.values.length < 1 then conf
  else if 1 < item.values.length then conf
  else dictSet conf key (item.values.headD CVal.vnone)

/-- configure of the source, restricted to the configuration dict it
builds: start from a copy of DEFAULTS and fold the option items. -/
def configure (children : List ConfigItem) : List (String × CVal) :=
  children.foldl configStep DEFAULTS

/-- The last value supplied for a recognized key by an item whose
lowercased key matches it and which carries exactly one value. -/
def lastGiven : List ConfigItem → String → Option CVal
  | [], _ => none
  | it :: rest, k =>
    or2 (lastGiven rest k)
      (if (pyLower it.key == k) && (it.values.length == 1)
       then some (it.values.headD CVal.vnone) else none)

/-- A sample as the host delivers it: the attributes of a collectd
Values object that the plugin reads.  Attributes the host may omit are
options. -/
structure Values where
  plugin : String
  plugin_instance : Option String
  type : Option String
  type_instance : Option String
  values : List ℚ
deriving DecidableEq

/-- Python truthiness of a string-or-None component: None and the
empty string are falsy. -/
def pyTruthy : Option String → Bool
  | none => false
  | some s => !(s == "")

/-- Python filter(None, xs) over string-or-None components. -/
def pyFilterTruthy (xs : List (Option String)) : List (Option String) :=
  xs.filter pyTruthy

/-- stats_path of the source: dot join of the truthy components
plugin, plugin_instance, type, type_instance, in that order. -/
def stats_path (v : Values) : String :=
  joinDot ((pyFilterTruthy
    [some v.plugin, v.plugin_instance, v.type, v.type_instance]).filterMap id)

/-- One metric sent to the statsd sink. -/
inductive Emission
  | gauge (path : String) (value : ℚ)
  | timing (path : String) (value : ℚ)
deriving DecidableEq

/-- The observable outcome of one writer call: emissions made to the
sink, in order, and the exception raised, if any. -/
structure WriteResult where
  emissions : List Emission
  error : Option Err
deriving DecidableEq

/-- Lookup of types[values.type]: reading a dict with a key that is
absent, or with the attribute missing, raises. -/
def lookupType (types : TypeSchema) : Option String → Option (List SourceSpec)
  | none => none
  | some k => dictGet types k

/-- The path computation of one iteration of the loop of write_stats:
with more than one value the descriptor name at the value index is
appended to the base path, and each of the three lookups can raise;
with a single value the path is the base path. -/
def source_suffix_path (types : TypeSchema) (v : Values) (base : String)
    (idx : Nat) : Except Err String :=
  if 1 < v.values.length then
    match lookupType types v.type with
    | none => Except.error Err.schemaLookup
    | some ds =>
      match ds[idx]? with
      | none => Except.error Err.indexLookup
      | some d =>
        match d.name with
        | none => Except.error Err.nameLookup
        | some n => Except.ok (base ++ "." ++ n)
  else Except.ok base

/-- The loop of write_stats over the remaining values, carrying the
enumeration index.  A raised exception ends the loop with the
emissions already made. -/
def write_stats_loop (v : Values) (types : TypeSchema) (base : String)
    (client : Option Unit) : Nat → List ℚ → WriteResult
  | _, [] => ⟨[], none⟩
  | idx, x :: rest =>
    match source_suffix_path types v base idx with
    | Except.error e => ⟨[], some e⟩
    | Except.ok path =>
      match client with
      | none => ⟨[], some Err.sinkUnavailable⟩
      | some _ =>
        let r := write_stats_loop v types base client (idx + 1) rest
        ⟨Emission.gauge path x :: r.emissions, r.error⟩

/-- write_stats of the source: the base path is the given one, or the
stats path of the sample when none is given. -/
def write_stats (v : Values) (types : TypeSchema) (base_path : Option String)
    (client : Option Unit) : WriteResult :=
  write_stats_loop v types (base_path.getD (stats_path v)) client 0 v.values

/-- write_interface of the source: join the stats path of the sample
with the type stripped of its first three characters, and delegate to
write_stats with that base path.  Reading the type attribute when the
host did not supply it raises. -/
def write_interface (v : Values) (types : TypeSchema) (client : Option Unit) :
    WriteResult :=
  match v.type with
  | none => ⟨[], some Err.attrError⟩
  | some ty => write_stats v types (some (joinDot [stats_path v, pyDrop3 ty])) client

/-- The loop of write_apache_worker_memory over the remaining values. -/
def write_awm_loop (v : Values) (client : Option Unit) : List ℚ → WriteResult
  | [] => ⟨[], none⟩
  | x :: rest =>
    match v.plugin_instance with
    | none => ⟨[], some Err.attrError⟩
    | some pi =>
      match client with
      | none => ⟨[], some Err.sinkUnavailable⟩
      | some _ =>
        let r := write_awm_loop v client rest
        ⟨Emission.timing (joinDot [v.plugin, pi]) x :: r.emissions, r.error⟩

/-- write_apache_worker_memory of the source: for each value the path
is the dot join of the plugin and the plugin instance, and the value
is sent with timing rather than gauge; the types argument is never
read. -/
def write_apache_worker_memory (v : Values) (types : TypeSchema)
    (client : Option Unit) : WriteResult :=
  write_awm_loop v client v.values

/-- The path builder as the specification words it for claim C2: join
the four components with dots, omitting only the absent ones, so an
empty string stays in place as a positional component. -/
def spec_stats_path (v : Values) : String :=
  joinDot ([some v.plugin, v.plugin_instance, v.type, v.type_instance].filterMap id)

/-- The token parser as the specification words it for claim C3: a
token must split on colons into exactly four fields and the kind must
be one of the four data-source kinds, otherwise a ParseError. -/
def specParseToken (tok : String) : Except Err SourceSpec :=
  match splitOnColon tok with
  | [n, k, mn, mx] =>
    if k = "ABSOLUTE" ∨ k = "COUNTER" ∨ k = "DERIVE" ∨ k = "GAUGE" then
      Except.ok ⟨some n, some k, some mn, some mx⟩
    else Except.error Err.parseErr
  | _ => Except.error Err.parseErr

/-- A sample whose plugin instance is present but empty. -/
def emptyInstSample : Values := ⟨"cpu", some "", some "cpu", some "idle", []⟩

/-- The interface scenario sample of the specification. -/
def ifaceSample : Values := ⟨"interface", some "eth0", some "if_octets", none, [10, 20]⟩

/-- A schema with the two descriptors rx and tx for if_octets. -/
def ifaceTypes : TypeSchema :=
  [("if_octets", parse_sources "rx:COUNTER:0:U, tx:COUNTER:0:U")]

/-- A two-value sample whose metric-set name is not in the schema. -/
def multiNoSchemaSample : Values := ⟨"p", none, some "t", none, [1, 2]⟩

/-- The single-value scenario sample of the specification. -/
def loadSample : Values := ⟨"load", none, some "load", none, [3/2]⟩

/-- The apache worker memory scenario sample of the specification. -/
def awmSample : Values :=
  ⟨"apache_worker_memory", some "httpd", none, none, [512000]⟩

/-- A three-value sample with metric-set name t. -/
def overrunSample : Values := ⟨"p", none, some "t", none, [1, 2, 3]⟩

/-- A schema giving t a single descriptor named rx. -/
def overrunTypes : TypeSchema := [("t", parse_sources "rx:COUNTER:0:U")]

/-- A configuration with case-varied duplicate keys, an unknown key,
and items with zero and with two values. -/
def demoChildren : List ConfigItem :=
  [⟨"Host", [CVal.str "example.com"]⟩,
   ⟨"bogus", [CVal.str "x"]⟩,
   ⟨"HOST", [CVal.str "final.example"]⟩,
   ⟨"port", []⟩,
   ⟨"host", [CVal.str "a", CVal.str "b"]⟩]

lemma filterTruthy_filterMap (xs : List (Option String)) :
    (pyFilterTruthy xs).filterMap id =
      (xs.filterMap id).filter (fun s => !(s == "")) := by
  induction xs with
  | nil => rfl
  | cons a t ih =>
    cases a with
    | none =>
      simpa [pyFilterTruthy, pyTruthy, List.filter_cons, List.filterMap_cons] using ih
    | some s =>
      by_cases hs : s = ""
      · subst hs
        simpa [pyFilterTruthy, pyTruthy, List.filter_cons, List.filterMap_cons] using ih
      · simp only [pyFilterTruthy, pyTruthy, List.filter_cons, List.filterMap_cons] at *
        simp [hs, ih]


/-- C1 counterexample: at the interface scenario of the specification
the writer does not emit the claimed paths; the base path keeps the
full metric-set name, so the emitted paths carry if_octets as well. -/
theorem interface_base_path_cex :
    (write_interface ifaceSample ifaceTypes (some ())).emissions ≠
      [Emission.gauge "interface.eth0.octets.rx" 10,
       Emission.gauge "interface.eth0.octets.tx" 20] ∧
    (write_interface ifaceSample ifaceTypes (some ())).emissions =
      [Emission.gauge "interface.eth0.if_octets.octets.rx" 10,
       Emission.gauge "interface.eth0.if_octets.octets.tx" 20] :=
  ⟨by decide, rfl⟩

/-- C1 amended: the interface writer keeps the metric-set name in the
base path as the path builder yields it, and additionally appends the
metric-set name stripped of its leading three characters; the
scenario therefore emits interface.eth0.if_octets.octets.rx = 10 and
interface.eth0.if_octets.octets.tx = 20. -/
theorem write_interface_includes_type_in_base :
    write_interface ifaceSample ifaceTypes (some ()) =
      ⟨[Emission.gauge "interface.eth0.if_octets.octets.rx" 10,
        Emission.gauge "interface.eth0.if_octets.octets.tx" 20], none⟩ ∧
    stats_path ifaceSample = "interface.eth0.if_octets" :=
  ⟨rfl, rfl⟩

/-- C2 counterexample: a present but empty plugin instance is dropped
from the path, not preserved as a positional component, because the
join filters components by Python truthiness. -/
theorem stats_path_empty_component_cex :
    stats_path emptyInstSample = "cpu.cpu.idle" ∧
    spec_stats_path emptyInstSample = "cpu..cpu.idle" ∧
    stats_path emptyInstSample ≠ spec_stats_path emptyInstSample :=
  ⟨rfl, rfl, by decide⟩

/-- C2 amended: for every sample the path builder joins, with dots,
the components plugin, plugin instance, metric-set name and type
instance in that order, omitting a component when it is absent or
when it equals the empty string. -/
theorem stats_path_drops_empty_components (v : Values) :
    stats_path v =
      joinDot (([some v.plugin, v.plugin_instance, v.type,
        v.type_instance].filterMap id).filter (fun s => !(s == ""))) := by
  unfold stats_path
  rw [filterTruthy_filterMap]

/-- C3 counterexample: a token with two fields yields a truncated
descriptor rather than an error, and an unknown kind is accepted
unchanged, while the validating parser of the specification rejects
both. -/
theorem parse_sources_malformed_cex :
    parse_sources "a:GAUGE" = [⟨some "a", some "GAUGE", none, none⟩] ∧
    parse_sources "a:BOGUS:0:1" = [⟨some "a", some "BOGUS", some "0", some "1"⟩] ∧
    specParseToken "a:GAUGE" = Except.error Err.parseErr ∧
    specParseToken "a:BOGUS:0:1" = Except.error Err.parseErr :=
  ⟨rfl, rfl, rfl, rfl⟩

/-- C3 amended: parsing a data-source token never fails; whatever the
token looks like it yields exactly one descriptor whose fields are the
leading colon-separated parts, missing parts leaving fields absent and
extra parts being dropped, with no validation of the kind; on tokens
the validating parser of the specification accepts, the descriptor
agrees with it. -/
theorem parse_sources_total_agree_spec (s tok : String)
    (h : pySplitWS (replaceCommaSpace s) = [tok]) :
    parse_sources s = [mkSource (splitOnColon tok)] ∧
    ∀ d, specParseToken tok = Except.ok d → mkSource (splitOnColon tok) = d := by
  constructor
  · unfold parse_sources
    rw [h]
    rfl
  · intro d hd
    unfold specParseToken at hd
    split at hd
    next n k mn mx heq =>
      split at hd
      · injection hd with hd'
        subst hd'
        rw [heq]
        rfl
      · cases hd
    next =>
      cases hd

/-- C3 witness: the amended theorem at a concrete well-formed token. -/
theorem parse_sources_total_agree_spec_witness :
    parse_sources "a:GAUGE:0:U" = [mkSource (splitOnColon "a:GAUGE:0:U")] ∧
    mkSource (splitOnColon "a:GAUGE:0:U") =
      ⟨some "a", some "GAUGE", some "0", some "U"⟩ := by
  have h := parse_sources_total_agree_spec "a:GAUGE:0:U" "a:GAUGE:0:U" rfl
  exact ⟨h.1, h.2 ⟨some "a", some "GAUGE", some "0", some "U"⟩ rfl⟩


/-- C4: a sample with more than one value whose metric-set name has no
schema entry makes the default writer raise the schema lookup error,
with nothing emitted to the sink, whatever the client is. -/
theorem write_stats_missing_schema_multi (v : Values) (types : TypeSchema)
    (client : Option Unit) (hm : 1 < v.values.length)
    (hlk : lookupType types v.type = none) :
    write_stats v types none client = ⟨[], some Err.schemaLookup⟩ := by
  obtain ⟨x, rest, hv⟩ : ∃ x rest, v.values = x :: rest := by
    cases hvv : v.values with
    | nil => rw [hvv] at hm; simp at hm
    | cons a t => exact ⟨a, t, rfl⟩
  unfold write_stats
  rw [hv]
  simp [write_stats_loop, source_suffix_path, hm, hlk]

/-- C4 witness: the theorem at a concrete sample and empty schema. -/
theorem write_stats_missing_schema_multi_witness :
    write_stats multiNoSchemaSample [] none (some ()) =
      ⟨[], some Err.schemaLookup⟩ :=
  write_stats_missing_schema_multi multiNoSchemaSample [] (some ())
    (by decide) rfl

/-- C7: a sample with exactly one value is written as a single gauge
at the bare base path; the schema argument is arbitrary and unused, so
the write succeeds with no schema entry for the metric-set name. -/
theorem write_stats_single_value (v : Values) (types : TypeSchema) (x : ℚ)
    (hv : v.values = [x]) :
    write_stats v types none (some ()) =
      ⟨[Emission.gauge (stats_path v) x], none⟩ := by
  have hm : ¬ 1 < v.values.length := by rw [hv]; simp
  unfold write_stats
  rw [hv]
  simp [write_stats_loop, source_suffix_path, hm]

/-- C7 witness: the load scenario of the specification, against the
empty schema. -/
theorem write_stats_single_value_witness :
    write_stats loadSample [] none (some ()) =
      ⟨[Emission.gauge "load.load" (3/2)], none⟩ :=
  write_stats_single_value loadSample [] (3/2) rfl

lemma write_awm_loop_emits (v : Values) (pi : String)
    (hpi : v.plugin_instance = some pi) (l : List ℚ) :
    write_awm_loop v (some ()) l =
      ⟨l.map (fun x => Emission.timing (v.plugin ++ "." ++ pi) x), none⟩ := by
  induction l with
  | nil => rfl
  | cons x t ih => simp [write_awm_loop, hpi, ih, joinDot]

/-- C6: the apache worker memory writer emits every value of the
sample as a timing metric at the dot join of the plugin and the plugin
instance, and the schema argument never influences the result. -/
theorem write_apache_worker_memory_timing (v : Values)
    (types types2 : TypeSchema) (pi : String)
    (hpi : v.plugin_instance = some pi) :
    write_apache_worker_memory v types (some ()) =
      ⟨v.values.map (fun x => Emission.timing (v.plugin ++ "." ++ pi) x),
       none⟩ ∧
    write_apache_worker_memory v types (some ()) =
      write_apache_worker_memory v types2 (some ()) := by
  refine ⟨?_, rfl⟩
  unfold write_apache_worker_memory
  exact write_awm_loop_emits v pi hpi v.values

/-- C6 witness: the apache worker memory scenario of the
specification. -/
theorem write_apache_worker_memory_timing_witness :
    write_apache_worker_memory awmSample [] (some ()) =
      ⟨[Emission.timing "apache_worker_memory.httpd" 512000], none⟩ := by
  have h := (write_apache_worker_memory_timing awmSample [] [] "httpd" rfl).1
  exact h

/-- C5 counterexample: with no sink constructed, a two-value sample
whose metric-set name is missing from the schema raises the schema
lookup error, not the sink unavailable error, because the path
computation precedes the client check. -/
theorem write_stats_no_sink_cex :
    write_stats multiNoSchemaSample [] none none =
      ⟨[], some Err.schemaLookup⟩ ∧
    Err.schemaLookup ≠ Err.sinkUnavailable :=
  ⟨rfl, by decide⟩

/-- C5 amended: a writer invoked with no sink on a sample with at
least one value always raises an error and emits nothing; the error is
the sink unavailable error for every single-value sample, and for
every multi-value sample whose first descriptor lookup succeeds, while
a failing schema lookup preempts it with the schema error; the apache
worker memory writer likewise raises the sink unavailable error. -/
theorem write_no_sink_errors :
    (∀ (v : Values) (types : TypeSchema), v.values ≠ [] →
       (write_stats v types none none).emissions = [] ∧
       (write_stats v types none none).error.isSome = true) ∧
    (∀ (v : Values) (types : TypeSchema), v.values.length = 1 →
       write_stats v types none none = ⟨[], some Err.sinkUnavailable⟩) ∧
    (∀ (v : Values) (types : TypeSchema) (ds : List SourceSpec)
       (d : SourceSpec) (n : String), v.values ≠ [] →
       lookupType types v.type = some ds → ds[0]? = some d →
       d.name = some n →
       write_stats v types none none = ⟨[], some Err.sinkUnavailable⟩) ∧
    (∀ (v : Values) (types : TypeSchema) (pi : String), v.values ≠ [] →
       v.plugin_instance = some pi →
       write_apache_worker_memory v types none =
         ⟨[], some Err.sinkUnavailable⟩) := by
  refine ⟨?_, ?_, ?_, ?_⟩
  · intro v types hne
    obtain ⟨x, rest, hv⟩ : ∃ x rest, v.values = x :: rest := by
      cases hvv : v.values with
      | nil => exact absurd hvv hne
      | cons a t => exact ⟨a, t, rfl⟩
    unfold write_stats
    rw [hv]
    cases hsp : source_suffix_path types v (stats_path v) 0 with
    | error e => simp [write_stats_loop, hsp]
    | ok path => simp [write_stats_loop, hsp]
  · intro v types h1
    obtain ⟨x, hv⟩ : ∃ x, v.values = [x] := by
      cases hvv : v.values with
      | nil => rw [hvv] at h1; simp at h1
      | cons a t =>
        rw [hvv] at h1
        simp at h1
        subst h1
        exact ⟨a, rfl⟩
    have hm : ¬ 1 < v.values.length := by rw [hv]; simp
    unfold write_stats
    rw [hv]
    simp [write_stats_loop, source_suffix_path, hm]
  · intro v types ds d n hne hlk hd0 hname
    obtain ⟨x, rest, hv⟩ : ∃ x rest, v.values = x :: rest := by
      cases hvv : v.values with
      | nil => exact absurd hvv hne
      | cons a t => exact ⟨a, t, rfl⟩
    unfold write_stats
    rw [hv]
    by_cases hm : 1 < v.values.length
    · simp [write_stats_loop, source_suffix_path, hm, hlk, hd0, hname]
    · simp [write_stats_loop, source_suffix_path, hm]
  · intro v types pi hne hpi
    obtain ⟨x, rest, hv⟩ : ∃ x rest, v.values = x :: rest := by
      cases hvv : v.values with
      | nil => exact absurd hvv hne
      | cons a t => exact ⟨a, t, rfl⟩
    unfold write_apache_worker_memory
    rw [hv]
    simp [write_awm_loop, hpi]

/-- C5 witness: the single-value conjunct at the load sample. -/
theorem write_no_sink_errors_witness :
    write_stats loadSample [] none none =
      ⟨[], some Err.sinkUnavailable⟩ :=
  write_no_sink_errors.2.1 loadSample [] rfl

lemma write_stats_loop_overrun (v : Values) (types : TypeSchema)
    (base : String) (ds : List SourceSpec)
    (hlk : lookupType types v.type = some ds)
    (hn : ∀ d, d ∈ ds → d.name ≠ none) (hm : 1 < v.values.length) :
    ∀ (rest : List ℚ) (idx : Nat), rest ≠ [] →
      ds.length < idx + rest.length →
      write_stats_loop v types base (some ()) idx rest =
        ⟨List.zipWith
            (fun d x => Emission.gauge (base ++ "." ++ (d.name.getD "")) x)
            (ds.drop idx) rest,
         some Err.indexLookup⟩ := by
  intro rest
  induction rest with
  | nil => intro idx hne _; exact absurd rfl hne
  | cons x rest ih =>
    intro idx hne hlen
    by_cases hidx : idx < ds.length
    · have hget : ds[idx]? = some ds[idx] := List.getElem?_eq_getElem hidx
      have hmem : ds[idx] ∈ ds := List.getElem_mem hidx
      obtain ⟨n, hname⟩ : ∃ n, (ds[idx]).name = some n := by
        cases hna : (ds[idx]).name with
        | none => exact absurd hna (hn _ hmem)
        | some n => exact ⟨n, rfl⟩
      have hrest : rest ≠ [] := by
        intro h0
        subst h0
        simp at hlen
        omega
      have ihh := ih (idx + 1) hrest (by simp at hlen ⊢; omega)
      rw [List.drop_eq_getElem_cons hidx]
      simp only [write_stats_loop, source_suffix_path, if_pos hm, hlk,
        hget, hname, List.zipWith_cons_cons, ihh]
      simp
    · have hge : ds.length ≤ idx := Nat.le_of_not_lt hidx
      have hget : ds[idx]? = none := List.getElem?_eq_none hge
      have hdrop : ds.drop idx = [] := List.drop_eq_nil_of_le hge
      simp [write_stats_loop, source_suffix_path, if_pos hm, hlk, hget, hdrop]

/-- C10: a sample with more than one value whose schema entry exists
but has fewer descriptors than there are values makes the default
writer emit one gauge per descriptor, suffixing the leading values in
order, and then raise the index lookup error on the first value
without a descriptor, so the write is not atomic. -/
theorem write_stats_partial_emission (v : Values) (types : TypeSchema)
    (ds : List SourceSpec) (hlk : lookupType types v.type = some ds)
    (hn : ∀ d, d ∈ ds → d.name ≠ none)
    (hshort : ds.length < v.values.length) (hm : 1 < v.values.length) :
    write_stats v types none (some ()) =
      ⟨List.zipWith
          (fun d x =>
            Emission.gauge (stats_path v ++ "." ++ (d.name.getD "")) x)
          ds v.values,
       some Err.indexLookup⟩ := by
  have hne : v.values ≠ [] := by
    intro h
    rw [h] at hm
    simp at hm
  have h := write_stats_loop_overrun v types (stats_path v) ds hlk hn hm
    v.values 0 hne (by omega)
  unfold write_stats
  simpa using h


/-- C10 witness: with three values and one descriptor, exactly the
first value is emitted before the index error. -/
theorem write_stats_partial_emission_witness :
    write_stats overrunSample overrunTypes none (some ()) =
      ⟨[Emission.gauge "p.t.rx" 1], some Err.indexLookup⟩ := by
  have h := write_stats_partial_emission overrunSample overrunTypes
    (parse_sources "rx:COUNTER:0:U") rfl (by decide) (by decide) (by decide)
  exact h.trans (by rfl)

lemma dictGet_append_single {α : Type} (l : List (String × α))
    (k9 k : String) (v : α) :
    dictGet (l ++ [(k9, v)]) k = if k9 = k then some v else dictGet l k := by
  induction l with
  | nil => by_cases h : k9 = k <;> simp [dictGet, h]
  | cons p t ih =>
    show dictGet (p :: (t ++ [(k9, v)])) k = _
    by_cases h : k9 = k
    · subst h
      simp [dictGet, ih]
    · simp [dictGet, ih, h]

lemma or2_assoc {α : Type} (a b c : Option α) :
    or2 (or2 a b) c = or2 a (or2 b c) := by
  cases a <;> rfl

lemma configure_foldl (k : String)
    (hk : (dictGet DEFAULTS k).isSome = true) :
    ∀ (children : List ConfigItem) (conf : List (String × CVal)),
      dictGet (children.foldl configStep conf) k =
        or2 (lastGiven children k) (dictGet conf k) := by
  intro children
  induction children with
  | nil => intro conf; rfl
  | cons it rest ih =>
    intro conf
    show dictGet (List.foldl configStep (configStep conf it) rest) k = _
    rw [ih]
    have hl : lastGiven (it :: rest) k =
        or2 (lastGiven rest k)
          (if (pyLower it.key == k) && (it.values.length == 1)
           then some (it.values.headD CVal.vnone) else none) := rfl
    rw [hl, or2_assoc]
    suffices h : dictGet (configStep conf it) k =
        or2 (if (pyLower it.key == k) && (it.values.length == 1)
             then some (it.values.headD CVal.vnone) else none)
          (dictGet conf k) by rw [h]
    by_cases hmatch : ((pyLower it.key == k) && (it.values.length == 1)) = true
    · have hkey : pyLower it.key = k := by
        have hall := (Bool.and_eq_true _ _).mp hmatch
        exact beq_iff_eq.mp hall.1
      have hlen : it.values.length = 1 := by
        have hall := (Bool.and_eq_true _ _).mp hmatch
        exact beq_iff_eq.mp hall.2
      have hnone : (dictGet DEFAULTS k).isNone = false := by
        cases hdef : dictGet DEFAULTS k with
        | none => rw [hdef] at hk; simp at hk
        | some w => rfl
      simp only [configStep, hkey, hnone, hlen]
      norm_num
      unfold dictSet
      rw [dictGet_append_single]
      simp [or2]
    · have hval : (if (pyLower it.key == k) && (it.values.length == 1)
          then some (it.values.headD CVal.vnone) else none) = none := by
        simp only [hmatch, Bool.false_eq_true, if_false]
      rw [hval]
      show dictGet (configStep conf it) k = or2 none (dictGet conf k)
      have hgoal : dictGet (configStep conf it) k = dictGet conf k := by
        unfold configStep
        by_cases h1 : (dictGet DEFAULTS (pyLower it.key)).isNone = true
        · simp [h1]
        · by_cases h2 : it.values.length < 1
          · simp [h1, h2]
          · by_cases h3 : 1 < it.values.length
            · simp [h1, h2, h3]
            · have hlen1 : it.values.length = 1 := by omega
              have hkey : ¬ (pyLower it.key = k) := by
                intro he
                apply hmatch
                simp [he, hlen1]
              simp only [h1, Bool.false_eq_true, if_false, h2, h3]
              unfold dictSet
              rw [dictGet_append_single]
              simp [hkey]
      rw [hgoal]
      rfl

lemma configure_unknown_key (k : String)
    (hk : dictGet DEFAULTS k = none) :
    ∀ (children : List ConfigItem) (conf : List (String × CVal)),
      dictGet (children.foldl configStep conf) k = dictGet conf k := by
  intro children
  induction children with
  | nil => intro conf; rfl
  | cons it rest ih =>
    intro conf
    show dictGet (List.foldl configStep (configStep conf it) rest) k = _
    rw [ih]
    unfold configStep
    by_cases h1 : (dictGet DEFAULTS (pyLower it.key)).isNone = true
    · simp [h1]
    · by_cases h2 : it.values.length < 1
      · simp [h1, h2]
      · by_cases h3 : 1 < it.values.length
        · simp [h1, h2, h3]
        · have hkey : ¬ (pyLower it.key = k) := by
            intro he
            rw [he] at h1
            rw [hk] at h1
            simp at h1
          simp only [h1, Bool.false_eq_true, if_false, h2, h3]
          unfold dictSet
          rw [dictGet_append_single]
          simp [hkey]

/-- C8: after configuration processing, a recognized option (keys
matched case-insensitively) holds the last value supplied by an item
with a matching key and exactly one value, falling back to its
default; items with an unrecognized key never touch the
configuration; the defaults are localhost, 8125, no prefix, and the
standard types database path. -/
theorem configure_last_wins :
    (∀ (children : List ConfigItem) (k : String),
       (dictGet DEFAULTS k).isSome = true →
       dictGet (configure children) k =
         or2 (lastGiven children k) (dictGet DEFAULTS k)) ∧
    (∀ (children : List ConfigItem) (k : String),
       dictGet DEFAULTS k = none →
       dictGet (configure children) k = none) ∧
    (dictGet DEFAULTS "host" = some (CVal.str "localhost") ∧
     dictGet DEFAULTS "port" = some (CVal.int 8125) ∧
     dictGet DEFAULTS "prefix" = some CVal.vnone ∧
     dictGet DEFAULTS "typesdb" =
       some (CVal.str "/usr/share/collectd/types.db")) := by
  refine ⟨?_, ?_, by decide⟩
  · intro children k hk
    exact configure_foldl k hk children DEFAULTS
  · intro children k hk
    have h := configure_unknown_key k hk children DEFAULTS
    unfold configure
    rw [h, hk]


/-- C8 witness: on the demo configuration the host option holds the
last valid value and the port option keeps its default. -/
theorem configure_last_wins_witness :
    dictGet (configure demoChildren) "host" =
      some (CVal.str "final.example") ∧
    dictGet (configure demoChildren) "port" = some (CVal.int 8125) := by
  have h1 := configure_last_wins.1 demoChildren "host" (by decide)
  have h2 := configure_last_wins.1 demoChildren "port" (by decide)
  rw [h1, h2]
  constructor <;> decide

lemma build_specs_append_single (xs : List (List String))
    (name srcs : String) :
    build_specs (xs ++ [[name, srcs]]) =
      match build_specs xs with
      | Except.ok d => Except.ok (d ++ [(name, parse_sources srcs)])
      | Except.error e => Except.error e := by
  induction xs with
  | nil => rfl
  | cons s t ih =>
    cases s with
    | nil => rfl
    | cons a s1 =>
      cases s1 with
      | nil => rfl
      | cons b s2 =>
        cases s2 with
        | nil =>
          show build_specs ([a, b] :: (t ++ [[name, srcs]])) = _
          simp only [build_specs, ih]
          cases build_specs t with
          | ok d => rfl
          | error e => rfl
        | cons c s3 => rfl

/-- C9: parsing the types database skips blank lines and lines whose
first non-whitespace character is a hash, and a later line defining
the same metric-set name overrides every earlier one: when the file
parses, looking the name of its last well-formed defining line up in
the resulting dict yields exactly the descriptors of that line. -/
theorem parse_types_skip_and_last_wins :
    (∀ (pre post : List String) (l : String),
       pyStrip l = "" ∨ startsWithHash (pyStrip l) = true →
       parse_types (pre ++ l :: post) = parse_types (pre ++ post)) ∧
    (∀ (lines : List String) (l name srcs : String)
       (d : List (String × List SourceSpec)),
       pyStrip l = l → keepLine l = true → splitFirstWS l = [name, srcs] →
       parse_types (lines ++ [l]) = Except.ok d →
       dictGet d name = some (parse_sources srcs)) := by
  constructor
  · intro pre post l hskip
    unfold parse_types
    have hkl : keepLine (pyStrip l) = false := by
      cases hskip with
      | inl h => simp [keepLine, h]
      | inr h => simp [keepLine, h]
    simp [List.map_append, List.filter_append, List.filter_cons, hkl]
  · intro lines l name srcs d hstrip hkeep hsplit hok
    unfold parse_types at hok
    rw [List.map_append, List.filter_append] at hok
    simp only [List.map_cons, List.map_nil, List.filter_cons, hstrip, hkeep,
      if_true, List.filter_nil, List.map_append, hsplit] at hok
    rw [build_specs_append_single] at hok
    cases hb : build_specs (((lines.map pyStrip).filter keepLine).map splitFirstWS) with
    | error e =>
      rw [hb] at hok
      cases hok
    | ok d1 =>
      rw [hb] at hok
      have hd : d1 ++ [(name, parse_sources srcs)] = d := by
        injection hok
      rw [← hd, dictGet_append_single]
      simp

/-- C9 witness: a blank line and a comment line are skipped, and of
two lines defining cpu the later one determines the mapping. -/
theorem parse_types_skip_and_last_wins_witness :
    parse_types ["", "# note", "cpu user:GAUGE:0:100", "cpu idle:DERIVE:0:U"] =
      parse_types ["cpu user:GAUGE:0:100", "cpu idle:DERIVE:0:U"] ∧
    dictGet [("cpu", parse_sources "user:GAUGE:0:100"),
             ("cpu", parse_sources "idle:DERIVE:0:U")] "cpu" =
      some (parse_sources "idle:DERIVE:0:U") := by
  constructor
  · have h1 := parse_types_skip_and_last_wins.1 []
      ["# note", "cpu user:GAUGE:0:100", "cpu idle:DERIVE:0:U"] ""
      (Or.inl rfl)
    have h2 := parse_types_skip_and_last_wins.1 []
      ["cpu user:GAUGE:0:100", "cpu idle:DERIVE:0:U"] "# note"
      (Or.inr rfl)
    exact h1.trans h2
  · exact parse_types_skip_and_last_wins.2 ["cpu user:GAUGE:0:100"]
      "cpu idle:DERIVE:0:U" "cpu" "idle:DERIVE:0:U"
      [("cpu", parse_sources "user:GAUGE:0:100"),
       ("cpu", parse_sources "idle:DERIVE:0:U")] rfl rfl rfl rfl
